import Mathlib

/-!
Verification model of the enhance-form client module.

The module under study is a custom web component that intercepts form
submission and field-blur events, issues requests carrying discriminating
headers, cancels superseded in-flight requests through a map of abort
controllers, and swaps DOM subtrees with nodes from the parsed response
document.

The embedding below mirrors the client module:

* the DOM is a rose tree of elements (`El`); live nodes are addressed by
  child-index paths from the document root;
* the CSS selectors the module uses are covered by the `Sel` subset
  (tag, attribute presence, attribute equality, `:is`, `:has`);
* `querySelector` is first-match pre-order search (`qsNode`, `elQS`);
* `AbortController` instances are entries of an indexed token store
  (`Ctrl`): `abort` marks a token with a reason, the `controllers` map
  binds a channel key to the id of its current token;
* the handlers (`handleInputValidation`, `handleFormValidation`,
  `handleRedirect`, `focusFirstInvalidInput`, `replaceElements`) are
  state-passing functions that also emit an `Effect` trace recording
  browser navigation, listener binding, focus, caret placement and
  logged warnings; a fetch outcome is an input (`Except FetchErr Resp`)
  since the network is external.
-/

set_option autoImplicit false

namespace EnhanceForm

/-! ## DOM model -/

mutual
/-- A DOM element: tag name, attribute list, child elements. -/
inductive El where
  | mk (tag : String) (attrs : List (String × String)) (kids : ElList)
deriving DecidableEq
/-- A list of sibling elements (mutual with `El` so that all DOM
recursion is structural and kernel-reducible). -/
inductive ElList where
  | nil
  | cons (e : El) (es : ElList)
deriving DecidableEq
end

def El.tag : El → String
  | .mk t _ _ => t

def El.attrs : El → List (String × String)
  | .mk _ a _ => a

def El.kids : El → ElList
  | .mk _ _ ks => ks

/-- Child at index `i` (document order). -/
def ElList.getIdx : ElList → Nat → Option El
  | .nil, _ => none
  | .cons c _, 0 => some c
  | .cons _ cs, i + 1 => cs.getIdx i

/-- Replace the child at index `i` (out-of-range indices leave the list
unchanged; every use below supplies an in-range index). -/
def ElList.setIdx : ElList → Nat → El → ElList
  | .nil, _, _ => .nil
  | .cons _ cs, 0, x => .cons x cs
  | .cons c cs, i + 1, x => .cons c (cs.setIdx i x)

/-- Build an `ElList` from a `List El` (fixture convenience). -/
def elist : List El → ElList
  | [] => .nil
  | e :: es => .cons e (elist es)

/-- Element literal helper. -/
def el (t : String) (a : List (String × String)) (cs : List El) : El :=
  .mk t a (elist cs)

/-- The node reached from `e` by following child indices `p`. -/
def nodeAt : List Nat → El → Option El
  | [], e => some e
  | i :: p, e =>
    match e.kids.getIdx i with
    | some c => nodeAt p c
    | none => none

/-- The tree `e` with the node at path `p` swapped for `newE`
(models `Element.replaceWith` from the perspective of the document root). -/
def replaceAt : List Nat → El → El → El
  | [], newE, _ => newE
  | i :: p, newE, e =>
    match e.kids.getIdx i with
    | some c => .mk e.tag e.attrs (e.kids.setIdx i (replaceAt p newE c))
    | none => e

/-! ## Selectors

The module uses these selector forms: `form`, the `target` / `fail-target`
attribute values, `:is([enhance-form-group], fieldset):has([name="X"])`,
`:is(input, textarea)[enhance-validate]` and
`:is(input, textarea)[aria-invalid="true"]`. The `Sel` type covers them. -/

inductive Sel where
  | tagIs (t : String)
  | attrPresent (a : String)
  | attrEq (a v : String)
  | both (s₁ s₂ : Sel)
  | anyOf (s₁ s₂ : Sel)
  | hasDesc (s : Sel)
deriving DecidableEq

/-- Attribute presence test. -/
def hasAttr (a : String) (l : List (String × String)) : Bool :=
  l.any (fun kv => kv.1 == a)

/-- First value bound to attribute `a`. -/
def attrVal (a : String) (l : List (String × String)) : Option String :=
  (l.find? (fun kv => kv.1 == a)).map (·.2)

mutual
/-- Does `p` hold of `e` or some descendant of `e`? -/
def anyNode (p : El → Bool) : El → Bool
  | .mk t a ks => p (.mk t a ks) || anyKids p ks
/-- Does `p` hold of some element in the forest? -/
def anyKids (p : El → Bool) : ElList → Bool
  | .nil => false
  | .cons c cs => anyNode p c || anyKids p cs
end

/-- CSS matching for the selector subset; `hasDesc` looks at strict
descendants, as `:has([name=...])` does for a descendant combinator. -/
def selMatches : Sel → El → Bool
  | .tagIs t, e => e.tag == t
  | .attrPresent a, e => hasAttr a e.attrs
  | .attrEq a v, e => attrVal a e.attrs == some v
  | .both s₁ s₂, e => selMatches s₁ e && selMatches s₂ e
  | .anyOf s₁ s₂, e => selMatches s₁ e || selMatches s₂ e
  | .hasDesc s, e => anyKids (selMatches s) e.kids

mutual
/-- First match of `s` in the subtree rooted at `e`, in pre-order
(`Document.querySelector`: the root element itself may match).
Returns the path from `e` together with the matched element. -/
def qsNode (s : Sel) : El → Option (List Nat × El)
  | .mk t a ks =>
    if selMatches s (.mk t a ks) then some ([], .mk t a ks)
    else qsKids s ks 0
/-- First match of `s` in a forest, children numbered from `i`. -/
def qsKids (s : Sel) : ElList → Nat → Option (List Nat × El)
  | .nil, _ => none
  | .cons c cs, i =>
    match qsNode s c with
    | some (p, x) => some (i :: p, x)
    | none => qsKids s cs (i + 1)
end

/-- `Element.querySelector`: first match among strict descendants. -/
def elQS (s : Sel) (e : El) : Option (List Nat × El) :=
  qsKids s e.kids 0

/-- `this.querySelector(sel)` for the component living at `cp` in `dom`;
the returned path is absolute (from the document root). -/
def compQS (dom : El) (cp : List Nat) (s : Sel) : Option (List Nat × El) :=
  match nodeAt cp dom with
  | none => none
  | some comp =>
    match elQS s comp with
    | none => none
    | some (p, x) => some (cp ++ p, x)

/-- Does the node at path `q` of `dom` match `s`? -/
def matchAt (dom : El) (s : Sel) (q : List Nat) : Bool :=
  match nodeAt q dom with
  | some e => selMatches s e
  | none => false

/-- Auxiliary for `closest`: try prefixes of `cp` of length `k`, `k-1`, ... -/
def closestDown (dom : El) (s : Sel) (cp : List Nat) : Nat → Option (List Nat)
  | 0 => if matchAt dom s [] then some [] else none
  | k + 1 =>
    if matchAt dom s (cp.take (k + 1)) then some (cp.take (k + 1))
    else closestDown dom s cp k

/-- `Element.closest`: nearest ancestor-or-self of the node at `cp`
matching `s`, as a path in `dom`. -/
def closest (dom : El) (cp : List Nat) (s : Sel) : Option (List Nat) :=
  closestDown dom s cp cp.length

/-! ## Generic list helpers (indexed access and update) -/

/-- Element at index `i` of a plain list. -/
def nth {α : Type} : List α → Nat → Option α
  | [], _ => none
  | a :: _, 0 => some a
  | _ :: l, i + 1 => nth l i

/-- Apply `f` at index `i` (out-of-range: unchanged). -/
def updNth {α : Type} (f : α → α) : Nat → List α → List α
  | _, [] => []
  | 0, a :: l => f a :: l
  | i + 1, a :: l => a :: updNth f i l

/-! ## Abort controllers

The module keeps `controllers : Map<string, AbortController>`. We model
the set of controller objects ever created as an indexed store of
`Token`s (index = identity), and the map as an association list from
channel key to token id. `AbortController.abort(reason)` marks the token
aborted; aborting an already-aborted controller is a no-op (the signal
keeps its first reason). -/

/-- One `AbortController`'s signal: has it been aborted, and with which
reason (`none` models the default `AbortError` reason of `abort()`). -/
structure Token where
  aborted : Bool
  reason : Option String
deriving DecidableEq

/-- The controller store plus the `controllers` map of the component. -/
structure Ctrl where
  tokens : List Token
  chans : List (String × Nat)
deriving DecidableEq

/-- `controllers.get(k)` (as a token id). -/
def chanGet : List (String × Nat) → String → Option Nat
  | [], _ => none
  | (k', v) :: rest, k => if k' == k then some v else chanGet rest k

/-- `Map.set` semantics on the association list: overwrite in place or
append. -/
def setAssoc : List (String × Nat) → String → Nat → List (String × Nat)
  | [], k, v => [(k, v)]
  | (k', v') :: rest, k, v =>
    if k' == k then (k, v) :: rest else (k', v') :: setAssoc rest k v

/-- `tokens[i].abort(r)`: no-op if already aborted. -/
def abortTok (ts : List Token) (i : Nat) (r : Option String) : List Token :=
  updNth (fun t => if t.aborted then t else { aborted := true, reason := r }) i ts

/-- `controllers.get(k)?.abort(r)` (optional chaining: absent key is a
no-op). -/
def abortKey (c : Ctrl) (k : String) (r : Option String) : Ctrl :=
  match chanGet c.chans k with
  | some i => { c with tokens := abortTok c.tokens i r }
  | none => c

/-- `controllers.set(k, new AbortController())`: a fresh live token is
created (id = current store size) and bound to `k`. -/
def ctrlSet (c : Ctrl) (k : String) : Ctrl :=
  { tokens := c.tokens ++ [{ aborted := false, reason := none }],
    chans := setAssoc c.chans k c.tokens.length }

/-- `controllers.forEach((controller) => controller.abort())`: abort
every bound controller with the default reason. -/
def abortAll (c : Ctrl) : Ctrl :=
  { c with tokens := c.chans.foldl (fun ts kv => abortTok ts kv.2 none) c.tokens }

/-! ## Responses and fetch outcomes -/

/-- A fetch `Response` as the module consumes it: status code, the one
response header it reads (`X-Enhance-Redirect`, `none` models a `null`
from `headers.get`), the `redirected` flag with final `url`, and the
response text already parsed by `DOMParser` (which never throws: parse
failures yield an error document, so `body` is always an element tree). -/
structure Resp where
  status : Nat
  redirectHeader : Option String
  redirected : Bool
  url : String
  body : El
deriving DecidableEq

/-- A rejected fetch: transport failure, or cancellation through the
abort signal (carrying the abort reason). -/
inductive FetchErr where
  | network (msg : String)
  | aborted (reason : Option String)
deriving DecidableEq

/-- `getHeader(response, EnhancedHeader.Redirect)`. -/
def getRedirectHeader (res : Resp) : Option String :=
  res.redirectHeader

/-- Origin (`scheme://authority`) of a URL string; `none` when the URL
does not parse as absolute. Models the `new URL(url)` probe of
`isInternalUrl`: relative URLs throw there and count as internal. -/
def urlOrigin (url : String) : Option String :=
  match url.splitOn "://" with
  | [scheme, rest] => some (scheme ++ "://" ++ ((rest.splitOn "/").headD ""))
  | _ => none

/-- `isInternalUrl`: same origin as the page, and relative URLs are
internal. -/
def isInternalUrl (pageOrigin : String) (url : String) : Bool :=
  match urlOrigin url with
  | some o => o == pageOrigin
  | none => true

/-! ## Component state and effect trace -/

/-- Observable actions the handlers perform besides mutating the
document tree and the controller map. -/
inductive Effect where
  /-- `window.location.assign(url)`. -/
  | navigate (url : String)
  /-- `console.warn("Form validation:", error)` from a catch block. -/
  | warn
  /-- `bindEvents()` run against the (new) live form at this path. -/
  | bindAll (formPath : List Nat)
  /-- `bindEvents(input)` on the single re-inserted input at this path. -/
  | bindInput (inputPath : List Nat)
  /-- `input.focus()` on the node at this path. -/
  | focus (p : List Nat)
  /-- `input.setSelectionRange(-1, -1)`: caret to end of value. -/
  | caretEnd (p : List Nat)
  /-- An error escaped the handler (no surrounding catch). -/
  | uncaughtError
deriving DecidableEq

/-- An `EnhanceForm` instance: the live document with the component's
position in it, the `_form` reference (a path; `none` models `null`),
the two selector attributes (already parsed; `_failTargetSelector`
defaults to `_targetSelector` at construction), the controller map, and
the ambient `window.location.origin`. -/
structure CompState where
  dom : El
  compPath : List Nat
  formRef : Option (List Nat)
  targetSel : Sel
  failSel : Sel
  ctrl : Ctrl
  pageOrigin : String
deriving DecidableEq

/-! ## The component operations -/

/-- The constructor: find the first `form` descendant of the component;
without one, construction fails with
`"No form found in <enhance-form>"`; otherwise `_form` is that node.
The selector attributes arrive already parsed (`fail-target` defaulting
to `target` is applied by the caller of this model, as in the attribute
reads of the source constructor). -/
def construct (dom : El) (cp : List Nat) (tSel fSel : Sel)
    (pageOrigin : String) : Except String CompState :=
  match nodeAt cp dom with
  | none => .error "No form found in <enhance-form>"
  | some comp =>
    match elQS (.tagIs "form") comp with
    | none => .error "No form found in <enhance-form>"
    | some (p, _) =>
      .ok { dom := dom, compPath := cp, formRef := some (cp ++ p),
            targetSel := tSel, failSel := fSel,
            ctrl := { tokens := [], chans := [] }, pageOrigin := pageOrigin }

/-- `replaceElements(html, selector, replaceRootElement?)`:
`newElement` is the first match of `selector` in the response document;
`currentElement` is `replaceRootElement` itself when one is passed
(JS `replaceRootElement || this.querySelector(selector)` — an element is
always truthy), else the first match inside the component. When both
exist, the current node is swapped for the new one and the new node is
returned; otherwise no mutation, `null`. Returns the updated document
and the inserted node with its path. -/
def replaceElements (dom : El) (cp : List Nat) (html : El) (s : Sel)
    (replaceRootPath : Option (List Nat)) : El × Option (List Nat × El) :=
  let newElement := qsNode s html
  let currentPath :=
    match replaceRootPath with
    | some q => some q
    | none => (compQS dom cp s).map (·.1)
  match newElement, currentPath with
  | some (_, ne), some q => (replaceAt q ne dom, some (q, ne))
  | _, _ => (dom, none)

/-- `handleRedirect(response)`: read the redirect header, return early
on a falsy value (so on the empty string as well as `null`), otherwise
navigate. -/
def handleRedirect (res : Resp) : List Effect :=
  match getRedirectHeader res with
  | none => []
  | some s => if s == "" then [] else [.navigate s]

/-- The group selector
`:is([enhance-form-group], fieldset):has([name="X"])` for field `X`. -/
def groupSel (name : String) : Sel :=
  .both (.anyOf (.attrPresent "enhance-form-group") (.tagIs "fieldset"))
    (.hasDesc (.attrEq "name" name))

/-- `:is(input, textarea)[enhance-validate]`. -/
def validateSel : Sel :=
  .both (.anyOf (.tagIs "input") (.tagIs "textarea"))
    (.attrPresent "enhance-validate")

/-- `:is(input, textarea)[aria-invalid="true"]`. -/
def invalidSel : Sel :=
  .both (.anyOf (.tagIs "input") (.tagIs "textarea"))
    (.attrEq "aria-invalid" "true")

/-- `"setSelectionRange" in element`: input and textarea elements expose
it. -/
def hasSetSelectionRange (e : El) : Bool :=
  e.tag == "input" || e.tag == "textarea"

/-- `handleInputValidation(event)` for a blur on the tracked input named
`name` whose current value is `value`; `r` is the outcome of the fetch
issued by `requestForm` (the response when it resolved, the rejection
otherwise). Mirrors the source: empty value returns at once; otherwise
abort the previous controller of this field with reason
`"Aborted by user"`, register a fresh controller, send; a rejection is
caught and logged; an externally-redirected response navigates and stops
(`html` is `null`); otherwise the form group for the field is replaced
and, when the new group still holds a validate-enabled input, that input
is re-bound. -/
def handleInputValidation (st : CompState) (name value : String)
    (r : Except FetchErr Resp) : CompState × List Effect :=
  if value == "" then (st, [])
  else
    let st1 := { st with
      ctrl := ctrlSet (abortKey st.ctrl name (some "Aborted by user")) name }
    match r with
    | .error _ => (st1, [.warn])
    | .ok res =>
      if res.redirected && !(isInternalUrl st.pageOrigin res.url) then
        (st1, [.navigate res.url])
      else
        let (dom', ins) :=
          replaceElements st1.dom st1.compPath res.body (groupSel name) none
        let st2 := { st1 with dom := dom' }
        match ins with
        | none => (st2, [])
        | some (gp, g) =>
          match elQS validateSel g with
          | none => (st2, [])
          | some (qp, _) => (st2, [.bindInput (gp ++ qp)])

/-- The status-driven tail of `handleFormValidation` (run only when a
parsed body is available). `4XX`: replace the `form` node, assign the
result to `_form` (even when it is `null`), and run `bindEvents()` —
which throws on a `null` `_form`; that throw is caught by the
surrounding catch and logged. `5XX`: `replaceElements` is called with
`this` as `replaceRootElement`. `200`: the replacement root is
`this.closest(targetSelector)` when that is non-null, else `this`,
wrapped in a view transition (modeled as the bare callback run). The
three checks are written in source order; the status ranges are
disjoint, so at most one branch fires. -/
def statusBranches (st1 : CompState) (status : Nat) (doc : El) :
    CompState × List Effect :=
  if 400 ≤ status ∧ status ≤ 499 then
    let (dom', ins) :=
      replaceElements st1.dom st1.compPath doc (.tagIs "form") none
    let st2 := { st1 with dom := dom', formRef := ins.map (·.1) }
    match ins with
    | none => (st2, [.warn])
    | some (pf, _) => (st2, [.bindAll pf])
  else if 500 ≤ status ∧ status ≤ 599 then
    ({ st1 with dom :=
        (replaceElements st1.dom st1.compPath doc st1.failSel
          (some st1.compPath)).1 }, [])
  else if status = 200 then
    let tp := (closest st1.dom st1.compPath st1.targetSel).getD st1.compPath
    ({ st1 with dom :=
        (replaceElements st1.dom st1.compPath doc st1.targetSel
          (some tp)).1 }, [])
  else (st1, [])

/-- `handleFormValidation(event)`: abort every controller in the map,
register a fresh controller under `"form"`, send the submission request.
A rejection is caught and logged. On a response: `requestForm` navigates
and returns a `null` body for an externally-redirected response; the
redirect header is then inspected (before the `!html` guard and without
an early return); with a body present the status branches run. -/
def handleFormValidation (st : CompState) (r : Except FetchErr Resp) :
    CompState × List Effect :=
  let st1 := { st with ctrl := ctrlSet (abortAll st.ctrl) "form" }
  match r with
  | .error _ => (st1, [.warn])
  | .ok res =>
    let ext := res.redirected && !(isInternalUrl st.pageOrigin res.url)
    let navEffs : List Effect := if ext then [.navigate res.url] else []
    let redirEffs :=
      if (getRedirectHeader res).isSome then handleRedirect res else []
    if ext then (st1, navEffs ++ redirEffs)
    else
      let (st2, effs) := statusBranches st1 res.status res.body
      (st2, navEffs ++ redirEffs ++ effs)

/-- `focusFirstInvalidInput()`: first invalid input or textarea inside
`_form` gets focus, and the caret goes to the end of its value when the
element exposes `setSelectionRange`. A `null` `_form` makes the member
access throw, and no catch surrounds this call in the submit listener. -/
def focusFirstInvalidInput (st : CompState) : List Effect :=
  match st.formRef with
  | none => [.uncaughtError]
  | some p =>
    match nodeAt p st.dom with
    | none => []
    | some formEl =>
      match elQS invalidSel formEl with
      | none => []
      | some (q, e) =>
        [.focus (p ++ q)] ++
          (if hasSetSelectionRange e then [.caretEnd (p ++ q)] else [])

/-- The submit listener installed by `bindEvents()`: run
`handleFormValidation`, then `focusFirstInvalidInput`. -/
def submitPipeline (st : CompState) (r : Except FetchErr Resp) :
    CompState × List Effect :=
  let (st', effs) := handleFormValidation st r
  (st', effs ++ focusFirstInvalidInput st')

/-- Replacement acceptance as the specification words it (for comparison
with `replaceElements`): the current node is the first match of the
selector searched WITHIN the root override when one is given.
Modelled from the spec: "Finds first match of `selector` in
`newDocument` and, independently, first match of `selector` within
`rootOverride` if given, else within the component's own subtree." -/
def replaceElementsSpec (dom : El) (cp : List Nat) (html : El) (s : Sel)
    (replaceRootPath : Option (List Nat)) : El × Option (List Nat × El) :=
  let newElement := qsNode s html
  let currentPath :=
    match replaceRootPath with
    | some q =>
      match nodeAt q dom with
      | some root => (elQS s root).map (fun px => q ++ px.1)
      | none => none
    | none => (compQS dom cp s).map (·.1)
  match newElement, currentPath with
  | some (_, ne), some q => (replaceAt q ne dom, some (q, ne))
  | _, _ => (dom, none)

/-! ## Concrete fixtures

A small live document: an `enhance-form` component holding a form with
one validate-enabled input, a success target `#ok` and a fail target
`#fail`, as in the README example. -/

/-- `target` attribute of the fixture component. -/
def okSel : Sel := .attrEq "id" "ok"

/-- `fail-target` attribute of the fixture component. -/
def failSel : Sel := .attrEq "id" "fail"

/-- The live form of the fixture. -/
def demoForm : El :=
  el "form" [] [el "input" [("name", "email"), ("enhance-validate", "")] []]

/-- The fixture document. -/
def demoDom : El :=
  el "html" []
    [el "enhance-form" []
      [demoForm, el "div" [("id", "ok")] [], el "div" [("id", "fail")] []]]

/-- The fixture component state (component at path `[0]`, form at
`[0, 0]`, empty controller map). -/
def demoState : CompState :=
  { dom := demoDom, compPath := [0], formRef := some [0, 0],
    targetSel := okSel, failSel := failSel,
    ctrl := { tokens := [], chans := [] },
    pageOrigin := "https://app.example" }

/-- A fresh `#fail` node as a server error page would carry it. -/
def newFailNode : El :=
  el "div" [("id", "fail")] [el "p" [("class", "oops")] []]

/-- A 500 response whose body holds only the fail target. -/
def resp500 : Resp :=
  { status := 500, redirectHeader := none, redirected := false,
    url := "https://app.example/submit", body := el "html" [] [newFailNode] }

/-- The same 500 response carrying the redirect header with an empty
value. -/
def resp500emptyRedirect : Resp :=
  { resp500 with redirectHeader := some "" }

/-- A 422 response whose body carries a re-rendered form with an invalid
input. -/
def respForm422 : El :=
  el "form" []
    [el "input"
      [("name", "email"), ("enhance-validate", ""), ("aria-invalid", "true")]
      []]

/-- The 422 response for the fixture. -/
def resp422 : Resp :=
  { status := 422, redirectHeader := none, redirected := false,
    url := "https://app.example/submit", body := el "html" [] [respForm422] }

/-- A 422 response whose body has no form at all. -/
def resp422noForm : Resp :=
  { status := 422, redirectHeader := none, redirected := false,
    url := "https://app.example/submit",
    body := el "html" [] [el "div" [("class", "broken")] []] }

/-! ## Soundness of the query-selector model

`qsNode`/`qsKids` really return a node of the searched tree (locatable by
the returned path) and that node really matches the selector. Stated as
recursive definitions producing proofs, mirroring the recursion of the
functions themselves. -/

mutual
/-- A `qsNode` hit lies at the returned path and matches the selector. -/
def qsNode_sound (s : Sel) : (e : El) → ∀ p x, qsNode s e = some (p, x) →
    nodeAt p e = some x ∧ selMatches s x = true
  | .mk t a ks, p, x, h => by
    rw [qsNode] at h
    by_cases hm : selMatches s (El.mk t a ks)
    · rw [if_pos hm] at h
      simp only [Option.some.injEq, Prod.mk.injEq] at h
      obtain ⟨hp, hx⟩ := h
      subst hp
      subst hx
      exact ⟨rfl, hm⟩
    · rw [if_neg hm] at h
      obtain ⟨j, q, c, hpeq, _, hget, hnode, hsel⟩ :=
        qsKids_sound s ks 0 p x h
      subst hpeq
      refine ⟨?_, hsel⟩
      show (match (El.mk t a ks).kids.getIdx j with
            | some c => nodeAt q c | none => none) = some x
      rw [Nat.sub_zero] at hget
      show (match ks.getIdx j with | some c => nodeAt q c | none => none) = some x
      rw [hget]
      exact hnode
/-- A `qsKids` hit (children numbered from `i`) lies at child index
`j - i` of the forest. -/
def qsKids_sound (s : Sel) : (l : ElList) → ∀ i p x, qsKids s l i = some (p, x) →
    ∃ j q c, p = j :: q ∧ i ≤ j ∧ l.getIdx (j - i) = some c ∧
      nodeAt q c = some x ∧ selMatches s x = true
  | .nil, i, p, x, h => by
    rw [qsKids] at h
    exact Option.noConfusion h
  | .cons c cs, i, p, x, h => by
    rw [qsKids] at h
    cases hq : qsNode s c with
    | some px =>
      obtain ⟨p0, x0⟩ := px
      rw [hq] at h
      simp only [Option.some.injEq, Prod.mk.injEq] at h
      obtain ⟨hp, hx⟩ := h
      obtain ⟨hn, hm⟩ := qsNode_sound s c p0 x0 hq
      refine ⟨i, p0, c, hp.symm, Nat.le_refl i, ?_, hx ▸ hn, hx ▸ hm⟩
      rw [Nat.sub_self]
      rfl
    | none =>
      rw [hq] at h
      obtain ⟨j, q, c', hpeq, hle, hget, hnode, hsel⟩ :=
        qsKids_sound s cs (i + 1) p x h
      refine ⟨j, q, c', hpeq, Nat.le_of_succ_le hle, ?_, hnode, hsel⟩
      have hji : j - i = (j - (i + 1)) + 1 := by omega
      rw [hji]
      show cs.getIdx (j - (i + 1)) = some c'
      exact hget
end

/-! ## Path lemmas -/

theorem getIdx_setIdx_self (i : Nat) (ks : ElList) (c x : El)
    (h : ks.getIdx i = some c) : (ks.setIdx i x).getIdx i = some x := by
  induction i generalizing ks with
  | zero =>
    cases ks with
    | nil => exact Option.noConfusion h
    | cons c0 cs => rfl
  | succ j ih =>
    cases ks with
    | nil => exact Option.noConfusion h
    | cons c0 cs => exact ih cs h

theorem nodeAt_append (p q : List Nat) (e : El) :
    nodeAt (p ++ q) e = (nodeAt p e).bind (fun c => nodeAt q c) := by
  induction p generalizing e with
  | nil => simp [nodeAt]
  | cons i p ih =>
    cases e with
    | mk t a ks =>
      show (match ks.getIdx i with
            | some c => nodeAt (p ++ q) c | none => none) =
        ((match ks.getIdx i with
          | some c => nodeAt p c | none => none).bind fun c => nodeAt q c)
      cases ks.getIdx i with
      | some c => exact ih c
      | none => rfl

theorem nodeAt_replaceAt (p : List Nat) (newE e y : El)
    (h : nodeAt p e = some y) :
    nodeAt p (replaceAt p newE e) = some newE := by
  induction p generalizing e with
  | nil => rfl
  | cons i p ih =>
    cases e with
    | mk t a ks =>
      have h' : (match ks.getIdx i with
          | some c => nodeAt p c | none => none) = some y := h
      cases hg : ks.getIdx i with
      | none => rw [hg] at h'; exact Option.noConfusion h'
      | some c =>
        rw [hg] at h'
        show nodeAt (i :: p)
            (match ks.getIdx i with
             | some c => El.mk t a (ks.setIdx i (replaceAt p newE c))
             | none => El.mk t a ks) = some newE
        rw [hg]
        show (match (ks.setIdx i (replaceAt p newE c)).getIdx i with
              | some c => nodeAt p c | none => none) = some newE
        rw [getIdx_setIdx_self i ks c (replaceAt p newE c) hg]
        exact ih c h'

/-! ## Controller-store lemmas -/

theorem nth_some_of_lt {α : Type} (l : List α) (i : Nat) (h : i < l.length) :
    ∃ a, nth l i = some a := by
  induction l generalizing i with
  | nil => exact absurd h (Nat.not_lt_zero i)
  | cons a l ih =>
    cases i with
    | zero => exact ⟨a, rfl⟩
    | succ j => exact ih j (Nat.lt_of_succ_lt_succ h)

theorem updNth_length {α : Type} (f : α → α) (i : Nat) (l : List α) :
    (updNth f i l).length = l.length := by
  induction l generalizing i with
  | nil => cases i <;> rfl
  | cons a l ih =>
    cases i with
    | zero => rfl
    | succ j => simpa [updNth] using ih j

theorem nth_updNth_self {α : Type} (f : α → α) (i : Nat) (l : List α) (a : α)
    (h : nth l i = some a) : nth (updNth f i l) i = some (f a) := by
  induction l generalizing i with
  | nil => exact Option.noConfusion h
  | cons b l ih =>
    cases i with
    | zero => cases h; rfl
    | succ j => exact ih j h

theorem nth_updNth_ne {α : Type} (f : α → α) (i j : Nat) (l : List α)
    (hne : j ≠ i) : nth (updNth f i l) j = nth l j := by
  induction l generalizing i j with
  | nil => cases i <;> rfl
  | cons b l ih =>
    cases i with
    | zero =>
      cases j with
      | zero => exact absurd rfl hne
      | succ j' => rfl
    | succ i' =>
      cases j with
      | zero => rfl
      | succ j' => exact ih i' j' (fun h => hne (congrArg Nat.succ h))

theorem nth_append_left {α : Type} (l l' : List α) (i : Nat)
    (h : i < l.length) : nth (l ++ l') i = nth l i := by
  induction l generalizing i with
  | nil => exact absurd h (Nat.not_lt_zero i)
  | cons a l ih =>
    cases i with
    | zero => rfl
    | succ j => exact ih j (Nat.lt_of_succ_lt_succ h)

theorem nth_append_length {α : Type} (l : List α) (x : α) :
    nth (l ++ [x]) l.length = some x := by
  induction l with
  | nil => rfl
  | cons a l ih => exact ih

theorem abortTok_length (ts : List Token) (i : Nat) (r : Option String) :
    (abortTok ts i r).length = ts.length :=
  updNth_length _ i ts

/-- Aborting a valid id leaves an aborted token there, whatever its
prior state. -/
theorem abortTok_nth_aborted (ts : List Token) (i : Nat) (r : Option String)
    (t : Token) (h : nth ts i = some t) :
    ∃ t', nth (abortTok ts i r) i = some t' ∧ t'.aborted = true := by
  refine ⟨_, nth_updNth_self _ i ts t h, ?_⟩
  by_cases ha : t.aborted
  · simp [ha]
  · simp [ha]

/-- `abort` never un-aborts: an already-aborted token is untouched. -/
theorem abortTok_keeps_aborted (ts : List Token) (i j : Nat) (r : Option String)
    (t : Token) (h : nth ts i = some t) (ha : t.aborted = true) :
    nth (abortTok ts j r) i = some t := by
  unfold abortTok
  by_cases hij : i = j
  · subst hij
    rw [nth_updNth_self _ i ts t h]
    simp [ha]
  · rw [nth_updNth_ne _ j i ts hij]
    exact h

/-- The fold in `abortAll` preserves the store size. -/
theorem foldAbort_length (l : List (String × Nat)) (ts : List Token) :
    (l.foldl (fun a kv => abortTok a kv.2 none) ts).length = ts.length := by
  induction l generalizing ts with
  | nil => rfl
  | cons kv l ih => rw [List.foldl_cons, ih, abortTok_length]

/-- The fold in `abortAll` never un-aborts a token. -/
theorem foldAbort_keeps_aborted (l : List (String × Nat)) (ts : List Token)
    (i : Nat) (t : Token) (h : nth ts i = some t) (ha : t.aborted = true) :
    nth (l.foldl (fun a kv => abortTok a kv.2 none) ts) i = some t := by
  induction l generalizing ts with
  | nil => exact h
  | cons kv l ih =>
    rw [List.foldl_cons]
    exact ih (abortTok ts kv.2 none) (abortTok_keeps_aborted ts i kv.2 none t h ha)

/-- After the fold in `abortAll`, every id bound in the map (and in
range) is aborted. -/
theorem foldAbort_aborts (l : List (String × Nat)) (ts : List Token)
    (k : String) (i : Nat) (hmem : (k, i) ∈ l) (hlt : i < ts.length) :
    ∃ t, nth (l.foldl (fun a kv => abortTok a kv.2 none) ts) i = some t ∧
      t.aborted = true := by
  induction l generalizing ts with
  | nil => exact absurd hmem (List.not_mem_nil _)
  | cons kv l ih =>
    rw [List.foldl_cons]
    rcases List.mem_cons.mp hmem with heq | hmem'
    · obtain ⟨t, ht⟩ := nth_some_of_lt ts i hlt
      have hkv : kv.2 = i := by rw [← heq]
      rw [hkv]
      obtain ⟨t', ht', ha'⟩ := abortTok_nth_aborted ts i none t ht
      exact ⟨t', foldAbort_keeps_aborted l (abortTok ts i none) i t' ht' ha', ha'⟩
    · exact ih (abortTok ts kv.2 none) hmem'
        (by rw [abortTok_length]; exact hlt)

theorem chanGet_setAssoc_self (l : List (String × Nat)) (k : String) (v : Nat) :
    chanGet (setAssoc l k v) k = some v := by
  induction l with
  | nil => simp [setAssoc, chanGet]
  | cons kv l ih =>
    obtain ⟨k', v'⟩ := kv
    cases hk : (k' == k) with
    | true => simp [setAssoc, hk, chanGet]
    | false => simp [setAssoc, hk, chanGet, ih]

theorem abortKey_tokens_length (c : Ctrl) (k : String) (r : Option String) :
    (abortKey c k r).tokens.length = c.tokens.length := by
  unfold abortKey
  cases chanGet c.chans k with
  | none => rfl
  | some i => exact abortTok_length c.tokens i r

theorem abortKey_chans (c : Ctrl) (k : String) (r : Option String) :
    (abortKey c k r).chans = c.chans := by
  unfold abortKey
  cases chanGet c.chans k with
  | none => rfl
  | some i => rfl

theorem abortAll_chans (c : Ctrl) : (abortAll c).chans = c.chans := rfl

theorem abortAll_tokens_length (c : Ctrl) :
    (abortAll c).tokens.length = c.tokens.length :=
  foldAbort_length c.chans c.tokens

/-- The id bound by `ctrlSet` is fresh and its token is live. -/
theorem ctrlSet_fresh (c : Ctrl) (k : String) :
    chanGet (ctrlSet c k).chans k = some c.tokens.length ∧
      nth (ctrlSet c k).tokens c.tokens.length =
        some { aborted := false, reason := none } :=
  ⟨chanGet_setAssoc_self c.chans k c.tokens.length,
    nth_append_length c.tokens _⟩

/-! ## Projection lemmas for the handlers -/

theorem statusBranches_ctrl (st1 : CompState) (status : Nat) (doc : El) :
    (statusBranches st1 status doc).1.ctrl = st1.ctrl := by
  unfold statusBranches
  split_ifs with h1 h2 h3
  · rcases replaceElements st1.dom st1.compPath doc (.tagIs "form") none
      with ⟨dom', ins⟩
    rcases ins with _ | ⟨pf, x⟩ <;> rfl
  · rfl
  · rfl
  · rfl

theorem statusBranches_formRef (st1 : CompState) (status : Nat) (doc : El)
    (h : ¬(400 ≤ status ∧ status ≤ 499)) :
    (statusBranches st1 status doc).1.formRef = st1.formRef := by
  unfold statusBranches
  split_ifs with h1 h2 <;> rfl

theorem handleFormValidation_ctrl (st : CompState) (r : Except FetchErr Resp) :
    (handleFormValidation st r).1.ctrl = ctrlSet (abortAll st.ctrl) "form" := by
  unfold handleFormValidation
  cases r with
  | error e => rfl
  | ok res =>
    by_cases hext : (res.redirected && !(isInternalUrl st.pageOrigin res.url)) = true
    · simp only [hext, if_true]
    · simp only [Bool.not_eq_true] at hext
      simp only [hext, Bool.false_eq_true, if_false]
      rcases hsb : statusBranches
          { st with ctrl := ctrlSet (abortAll st.ctrl) "form" } res.status res.body
        with ⟨st2, effs⟩
      have := statusBranches_ctrl
        { st with ctrl := ctrlSet (abortAll st.ctrl) "form" } res.status res.body
      rw [hsb] at this
      exact this

theorem handleInputValidation_ctrl (st : CompState) (name value : String)
    (r : Except FetchErr Resp) (hv : value ≠ "") :
    (handleInputValidation st name value r).1.ctrl =
      ctrlSet (abortKey st.ctrl name (some "Aborted by user")) name := by
  unfold handleInputValidation
  rw [if_neg (by simpa using hv)]
  cases r with
  | error e => rfl
  | ok res =>
    by_cases hext : (res.redirected && !(isInternalUrl st.pageOrigin res.url)) = true
    · simp only [hext, if_true]
    · simp only [Bool.not_eq_true] at hext
      simp only [hext, Bool.false_eq_true, if_false]
      cases hins :
          (replaceElements st.dom st.compPath res.body (groupSel name) none).2 with
      | none => rfl
      | some pg =>
        obtain ⟨gp, g⟩ := pg
        cases helQ : elQS validateSel g with
        | none => simp only [helQ]
        | some px =>
          obtain ⟨qp, y⟩ := px
          simp only [helQ]

theorem elQS_sound (s : Sel) (e : El) (p : List Nat) (x : El)
    (h : elQS s e = some (p, x)) :
    nodeAt p e = some x ∧ selMatches s x = true := by
  obtain ⟨j, q, c, hpeq, _, hget, hnode, hsel⟩ := qsKids_sound s e.kids 0 p x h
  subst hpeq
  refine ⟨?_, hsel⟩
  cases e with
  | mk t a ks =>
    show (match (El.mk t a ks).kids.getIdx j with
          | some c => nodeAt q c | none => none) = some x
    rw [Nat.sub_zero] at hget
    show (match ks.getIdx j with | some c => nodeAt q c | none => none) = some x
    rw [show (El.mk t a ks).kids = ks from rfl] at hget
    rw [hget]
    exact hnode

theorem compQS_sound (dom : El) (cp : List Nat) (s : Sel) (ap : List Nat)
    (x : El) (h : compQS dom cp s = some (ap, x)) :
    nodeAt ap dom = some x ∧ selMatches s x = true := by
  unfold compQS at h
  cases hc : nodeAt cp dom with
  | none => rw [hc] at h; exact Option.noConfusion h
  | some comp =>
    rw [hc] at h
    have h' : (match elQS s comp with
        | none => none
        | some (p, x) => some (cp ++ p, x)) = some (ap, x) := h
    cases he : elQS s comp with
    | none => rw [he] at h'; exact Option.noConfusion h'
    | some px =>
      obtain ⟨p, y⟩ := px
      rw [he] at h'
      simp only [Option.some.injEq, Prod.mk.injEq] at h'
      obtain ⟨hap, hxy⟩ := h'
      obtain ⟨hn, hm⟩ := elQS_sound s comp p y he
      subst hap
      refine ⟨?_, hxy ▸ hm⟩
      rw [nodeAt_append, hc]
      simpa using hxy ▸ hn

/-- A node matching a bare tag selector carries that tag. -/
theorem tag_of_selMatches (t : String) (x : El)
    (h : selMatches (.tagIs t) x = true) : x.tag = t := by
  simpa [selMatches] using h

/-- A node matching `invalidSel` exposes `setSelectionRange`. -/
theorem invalid_has_range (e : El) (h : selMatches invalidSel e = true) :
    hasSetSelectionRange e = true := by
  simp only [invalidSel, selMatches, Bool.and_eq_true, Bool.or_eq_true] at h
  simp only [hasSetSelectionRange, Bool.or_eq_true]
  exact h.1

/-! ## Behavior of `replaceElements` -/

/-- With a root override and a match in the response document, the
override node itself is swapped out (no search inside the override). -/
theorem replaceElements_override (dom : El) (cp : List Nat) (html : El)
    (s : Sel) (q : List Nat) (pn : List Nat) (ne : El)
    (h : qsNode s html = some (pn, ne)) :
    replaceElements dom cp html s (some q) = (replaceAt q ne dom, some (q, ne)) := by
  unfold replaceElements
  rw [h]

/-- No match in the response document: no mutation, `null` result. -/
theorem replaceElements_noNew (dom : El) (cp : List Nat) (html : El)
    (s : Sel) (ov : Option (List Nat)) (h : qsNode s html = none) :
    replaceElements dom cp html s ov = (dom, none) := by
  unfold replaceElements
  rw [h]

/-- No override and no match inside the component: no mutation. -/
theorem replaceElements_noCurrent (dom : El) (cp : List Nat) (html : El)
    (s : Sel) (h : compQS dom cp s = none) :
    replaceElements dom cp html s none = (dom, none) := by
  unfold replaceElements
  rw [h]
  cases qsNode s html with
  | none => rfl
  | some px => obtain ⟨pn, ne⟩ := px; rfl

/-- No override, with matches in both documents: the first match inside
the component is swapped for the response match. -/
theorem replaceElements_hit (dom : El) (cp : List Nat) (html : El) (s : Sel)
    (pn : List Nat) (ne : El) (q : List Nat) (cur : El)
    (hN : qsNode s html = some (pn, ne)) (hC : compQS dom cp s = some (q, cur)) :
    replaceElements dom cp html s none = (replaceAt q ne dom, some (q, ne)) := by
  unfold replaceElements
  rw [hN, hC]
  rfl

/-! ## Branch-level behavior of `handleFormValidation` -/

theorem statusBranches_5xx (st1 : CompState) (status : Nat) (doc : El)
    (h5 : 500 ≤ status) (h5b : status ≤ 599) :
    statusBranches st1 status doc =
      ({ st1 with dom :=
          (replaceElements st1.dom st1.compPath doc st1.failSel
            (some st1.compPath)).1 }, []) := by
  unfold statusBranches
  rw [if_neg (by omega), if_pos ⟨h5, h5b⟩]

theorem statusBranches_4xx (st1 : CompState) (status : Nat) (doc : El)
    (h4 : 400 ≤ status) (h4b : status ≤ 499)
    (pn : List Nat) (nf : El) (hB : qsNode (.tagIs "form") doc = some (pn, nf))
    (pf : List Nat) (oldf : El)
    (hC : compQS st1.dom st1.compPath (.tagIs "form") = some (pf, oldf)) :
    statusBranches st1 status doc =
      ({ st1 with dom := replaceAt pf nf st1.dom, formRef := some pf },
        [.bindAll pf]) := by
  unfold statusBranches
  rw [if_pos ⟨h4, h4b⟩]
  rw [replaceElements_hit st1.dom st1.compPath doc (.tagIs "form") pn nf pf oldf hB hC]
  rfl

theorem statusBranches_4xx_noForm (st1 : CompState) (status : Nat) (doc : El)
    (h4 : 400 ≤ status) (h4b : status ≤ 499)
    (hB : qsNode (.tagIs "form") doc = none) :
    statusBranches st1 status doc =
      ({ st1 with formRef := none }, [.warn]) := by
  unfold statusBranches
  rw [if_pos ⟨h4, h4b⟩]
  rw [replaceElements_noNew st1.dom st1.compPath doc (.tagIs "form") none hB]
  rfl

theorem statusBranches_no_navigate (st1 : CompState) (status : Nat) (doc : El)
    (u : String) : Effect.navigate u ∉ (statusBranches st1 status doc).2 := by
  unfold statusBranches
  split_ifs with h1 h2 h3
  · cases hins :
        (replaceElements st1.dom st1.compPath doc (.tagIs "form") none).2 with
    | none => simp [hins]
    | some pg =>
      obtain ⟨pf, x⟩ := pg
      simp [hins]
  · simp
  · simp
  · simp

/-- With a non-externally-redirected response, submission handling is:
controller sweep, optional header-driven navigation, then the status
branches; the state is the branch state and the effects are the header
effects followed by the branch effects. -/
theorem handleFormValidation_ok_noext (st : CompState) (res : Resp)
    (hext : (res.redirected && !(isInternalUrl st.pageOrigin res.url)) = false) :
    handleFormValidation st (.ok res) =
      ((statusBranches { st with ctrl := ctrlSet (abortAll st.ctrl) "form" }
          res.status res.body).1,
        (if (getRedirectHeader res).isSome then handleRedirect res else []) ++
          (statusBranches { st with ctrl := ctrlSet (abortAll st.ctrl) "form" }
            res.status res.body).2) := by
  unfold handleFormValidation
  simp only [hext, Bool.false_eq_true, if_false, List.nil_append]

/-- State-only version of `handleFormValidation_ok_noext` (the redirect
header influences effects alone). -/
theorem handleFormValidation_ok_state (st : CompState) (res : Resp)
    (hext : (res.redirected && !(isInternalUrl st.pageOrigin res.url)) = false) :
    (handleFormValidation st (.ok res)).1 =
      (statusBranches { st with ctrl := ctrlSet (abortAll st.ctrl) "form" }
        res.status res.body).1 := by
  rw [handleFormValidation_ok_noext st res hext]

/-- With no redirect header either, submission handling is exactly the
status branches. -/
theorem handleFormValidation_ok_plain (st : CompState) (res : Resp)
    (hhdr : res.redirectHeader = none)
    (hext : (res.redirected && !(isInternalUrl st.pageOrigin res.url)) = false) :
    handleFormValidation st (.ok res) =
      statusBranches { st with ctrl := ctrlSet (abortAll st.ctrl) "form" }
        res.status res.body := by
  rw [handleFormValidation_ok_noext st res hext]
  simp [getRedirectHeader, hhdr]

/-- `abortKey` when the key is bound. -/
theorem abortKey_of_get (c : Ctrl) (k : String) (r : Option String) (i : Nat)
    (h : chanGet c.chans k = some i) :
    abortKey c k r = { c with tokens := abortTok c.tokens i r } := by
  unfold abortKey
  rw [h]

/-! ## Controller algebra for supersession (two rounds on one key) -/

theorem ctrl_supersede (c : Ctrl) (k : String) (rr : Option String) :
    chanGet (ctrlSet (abortKey c k rr) k).chans k = some c.tokens.length ∧
    nth (ctrlSet (abortKey c k rr) k).tokens c.tokens.length =
      some { aborted := false, reason := none } ∧
    (∀ id0, chanGet c.chans k = some id0 → id0 < c.tokens.length →
      ∃ t, nth (ctrlSet (abortKey c k rr) k).tokens id0 = some t ∧
        t.aborted = true) ∧
    nth (ctrlSet (abortKey (ctrlSet (abortKey c k rr) k) k rr) k).tokens
        c.tokens.length = some { aborted := true, reason := rr } ∧
    chanGet (ctrlSet (abortKey (ctrlSet (abortKey c k rr) k) k rr) k).chans k =
      some (c.tokens.length + 1) ∧
    nth (ctrlSet (abortKey (ctrlSet (abortKey c k rr) k) k rr) k).tokens
        (c.tokens.length + 1) = some { aborted := false, reason := none } := by
  have hlen1 : (abortKey c k rr).tokens.length = c.tokens.length :=
    abortKey_tokens_length c k rr
  have hget1 : chanGet (ctrlSet (abortKey c k rr) k).chans k =
      some c.tokens.length := by
    show chanGet (setAssoc (abortKey c k rr).chans k
      (abortKey c k rr).tokens.length) k = some c.tokens.length
    rw [chanGet_setAssoc_self, hlen1]
  have hfresh1 : nth (ctrlSet (abortKey c k rr) k).tokens c.tokens.length =
      some { aborted := false, reason := none } := by
    show nth ((abortKey c k rr).tokens ++ [_]) c.tokens.length = _
    rw [← hlen1]
    exact nth_append_length (abortKey c k rr).tokens _
  have hlen2 : (ctrlSet (abortKey c k rr) k).tokens.length =
      c.tokens.length + 1 := by
    show ((abortKey c k rr).tokens ++ [_]).length = c.tokens.length + 1
    rw [List.length_append, hlen1]
    rfl
  refine ⟨hget1, hfresh1, ?_, ?_, ?_, ?_⟩
  · intro id0 hid0 hlt
    obtain ⟨t, ht⟩ := nth_some_of_lt c.tokens id0 hlt
    have habort : ∃ t', nth (abortKey c k rr).tokens id0 = some t' ∧
        t'.aborted = true := by
      unfold abortKey
      rw [hid0]
      exact abortTok_nth_aborted c.tokens id0 rr t ht
    obtain ⟨t', ht', ha'⟩ := habort
    refine ⟨t', ?_, ha'⟩
    show nth ((abortKey c k rr).tokens ++ [_]) id0 = some t'
    rw [nth_append_left]
    · exact ht'
    · rw [hlen1]; exact hlt
  · -- round two: the id bound after round one is aborted with reason `rr`
    have habort2 : (abortKey (ctrlSet (abortKey c k rr) k) k rr).tokens =
        abortTok (ctrlSet (abortKey c k rr) k).tokens c.tokens.length rr := by
      rw [abortKey_of_get (ctrlSet (abortKey c k rr) k) k rr
        c.tokens.length hget1]
    show nth ((abortKey (ctrlSet (abortKey c k rr) k) k rr).tokens ++ [_])
        c.tokens.length = _
    rw [habort2, nth_append_left]
    · have h2 : nth (abortTok (ctrlSet (abortKey c k rr) k).tokens
          c.tokens.length rr) c.tokens.length =
          some ((fun t => if t.aborted then t
            else { aborted := true, reason := rr })
              { aborted := false, reason := none }) :=
        nth_updNth_self _ c.tokens.length
          (ctrlSet (abortKey c k rr) k).tokens _ hfresh1
      rw [h2]
      rfl
    · rw [abortTok_length, hlen2]
      omega
  · have hlenA : (abortKey (ctrlSet (abortKey c k rr) k) k rr).tokens.length =
        c.tokens.length + 1 := by
      rw [abortKey_tokens_length, hlen2]
    show chanGet (setAssoc (abortKey (ctrlSet (abortKey c k rr) k) k rr).chans k
        (abortKey (ctrlSet (abortKey c k rr) k) k rr).tokens.length) k =
      some (c.tokens.length + 1)
    rw [chanGet_setAssoc_self, hlenA]
  · have hlenA : (abortKey (ctrlSet (abortKey c k rr) k) k rr).tokens.length =
        c.tokens.length + 1 := by
      rw [abortKey_tokens_length, hlen2]
    show nth ((abortKey (ctrlSet (abortKey c k rr) k) k rr).tokens ++ [_])
        (c.tokens.length + 1) = _
    rw [← hlenA]
    exact nth_append_length _ _

theorem handleInputValidation_formRefAux (st : CompState) (name value : String)
    (r : Except FetchErr Resp) :
    (handleInputValidation st name value r).1.formRef = st.formRef := by
  unfold handleInputValidation
  by_cases he : (value == "") = true
  · rw [if_pos he]
  · rw [if_neg he]
    cases r with
    | error e => rfl
    | ok res =>
      by_cases hext : (res.redirected && !(isInternalUrl st.pageOrigin res.url)) = true
      · simp only [hext, if_true]
      · simp only [Bool.not_eq_true] at hext
        simp only [hext, Bool.false_eq_true, if_false]
        cases hins :
            (replaceElements st.dom st.compPath res.body (groupSel name) none).2 with
        | none => rfl
        | some pg =>
          obtain ⟨gp, g⟩ := pg
          cases helQ : elQS validateSel g with
          | none => simp only [helQ]
          | some px =>
            obtain ⟨qp, y⟩ := px
            simp only [helQ]

/-! ## The claims -/

/-- C1 is false on the code: with the redirect header present (value
`""`) on a 500 response, the handling neither navigates (the effect
trace is empty, so the browser navigation function is not invoked with
the header URL) nor leaves the DOM alone (the success-target node
disappears from the live document), contradicting both parts of the
claim at this input. -/
theorem C1_counterexample :
    getRedirectHeader resp500emptyRedirect = some "" ∧
    (handleFormValidation demoState (.ok resp500emptyRedirect)).2 = [] ∧
    (qsNode okSel demoState.dom).isSome = true ∧
    (qsNode okSel
      (handleFormValidation demoState (.ok resp500emptyRedirect)).1.dom).isSome
      = false := by
  refine ⟨rfl, rfl, rfl, rfl⟩

/-- C1 (amended): for every submission response carrying the redirect
header with a non-empty value, the browser navigation function is
invoked with exactly that URL, but DOM handling is NOT short-circuited:
the resulting component state (document, form reference, controllers)
is exactly what the same response would produce with the header absent,
so the status-driven replacements still run, regardless of status
code. -/
theorem C1_redirect_navigates_dom_still_updated (st : CompState) (res : Resp)
    (v : String) (hhdr : res.redirectHeader = some v) (hv : v ≠ "") :
    Effect.navigate v ∈ (handleFormValidation st (.ok res)).2 ∧
    (handleFormValidation st (.ok res)).1 =
      (handleFormValidation st (.ok { res with redirectHeader := none })).1 := by
  have hred : handleRedirect res = [.navigate v] := by
    unfold handleRedirect getRedirectHeader
    rw [hhdr]
    simp [hv]
  by_cases hext : (res.redirected && !(isInternalUrl st.pageOrigin res.url)) = true
  · constructor
    · unfold handleFormValidation
      simp [hext, getRedirectHeader, hhdr, hred]
    · unfold handleFormValidation
      simp [hext]
  · simp only [Bool.not_eq_true] at hext
    constructor
    · rw [handleFormValidation_ok_noext st res hext]
      simp [getRedirectHeader, hhdr, hred]
    · rw [handleFormValidation_ok_noext st res hext,
        handleFormValidation_ok_noext st { res with redirectHeader := none } hext]

/-- Witness for C1 (amended) at the fixture: a 500 response carrying a
non-empty redirect URL navigates there and its state equals the
stripped-header run. -/
theorem C1_witness :
    ({ resp500 with redirectHeader := some "https://app.example/next" } :
        Resp).redirectHeader = some "https://app.example/next" ∧
    "https://app.example/next" ≠ "" ∧
    (Effect.navigate "https://app.example/next" ∈
      (handleFormValidation demoState
        (.ok { resp500 with redirectHeader := some "https://app.example/next" })).2 ∧
    (handleFormValidation demoState
        (.ok { resp500 with redirectHeader := some "https://app.example/next" })).1 =
      (handleFormValidation demoState
        (.ok { { resp500 with redirectHeader := some "https://app.example/next" }
            with redirectHeader := none })).1) :=
  ⟨rfl, by decide,
    C1_redirect_navigates_dom_still_updated demoState
      { resp500 with redirectHeader := some "https://app.example/next" }
      "https://app.example/next" rfl (by decide)⟩

/-- C2 is false on the code: on the fixture, a 500 response replaces the
whole component node (passed as `replaceRootElement`), not only the
fail-target node, so the success-target node (and the component itself)
vanish from the live document instead of being left unchanged. -/
theorem C2_counterexample :
    (qsNode okSel demoState.dom).isSome = true ∧
    (qsNode (.tagIs "enhance-form") demoState.dom).isSome = true ∧
    (qsNode okSel (handleFormValidation demoState (.ok resp500)).1.dom).isSome
      = false ∧
    (qsNode (.tagIs "enhance-form")
      (handleFormValidation demoState (.ok resp500)).1.dom).isSome = false := by
  refine ⟨rfl, rfl, rfl, rfl⟩

/-- C2 (amended): on a 500-range response with no redirect header (and a
non-externally-redirected fetch), `replaceElements` receives the
component root itself as the replacement target: the component node at
`compPath` is swapped for the response document's first fail-target
match when one exists — removing the whole component subtree, including
the success target — and nothing changes when the response has no
fail-target match. -/
theorem C2_5xx_replaces_component_root (st : CompState) (res : Resp)
    (h5 : 500 ≤ res.status) (h5b : res.status ≤ 599)
    (hhdr : res.redirectHeader = none)
    (hext : (res.redirected && !(isInternalUrl st.pageOrigin res.url)) = false) :
    (∀ pf nf, qsNode st.failSel res.body = some (pf, nf) →
      handleFormValidation st (.ok res) =
        ({ st with
            ctrl := ctrlSet (abortAll st.ctrl) "form",
            dom := replaceAt st.compPath nf st.dom }, [])) ∧
    (qsNode st.failSel res.body = none →
      handleFormValidation st (.ok res) =
        ({ st with ctrl := ctrlSet (abortAll st.ctrl) "form" }, [])) := by
  have hmain := handleFormValidation_ok_plain st res hhdr hext
  have hsb := statusBranches_5xx
    { st with ctrl := ctrlSet (abortAll st.ctrl) "form" } res.status res.body h5 h5b
  constructor
  · intro pf nf hm
    rw [hmain, hsb, replaceElements_override _ _ _ _ _ pf nf hm]
  · intro hm
    rw [hmain, hsb, replaceElements_noNew _ _ _ _ _ hm]

/-- Witness for C2 (amended) at the fixture: the 500 response swaps the
component node at `[0]` for the response fail node. -/
theorem C2_witness :
    (500 ≤ resp500.status ∧ resp500.status ≤ 599 ∧
      resp500.redirectHeader = none) ∧
    handleFormValidation demoState (.ok resp500) =
      ({ demoState with
          ctrl := ctrlSet (abortAll demoState.ctrl) "form",
          dom := replaceAt demoState.compPath newFailNode demoState.dom }, []) :=
  ⟨⟨by decide, by decide, rfl⟩,
    (C2_5xx_replaces_component_root demoState resp500 (by decide) (by decide)
      rfl rfl).1 [0] newFailNode rfl⟩

/-- C9: a blur event while the tracked field's current value is the
empty string issues no request and leaves the entire component state —
in particular the cancellation-token map — unchanged, with no effects. -/
theorem C9_empty_value_no_request (st : CompState) (name : String)
    (r : Except FetchErr Resp) :
    handleInputValidation st name "" r = (st, []) := by
  rfl

/-- C10: a present-but-empty redirect header causes no browser
navigation (the redirect handler returns early on the falsy value even
though the presence check against `null` succeeds), and the submission
handling — state and effects alike — is exactly what it would be with
the header absent; with a non-externally-redirected response no
navigation effect is emitted at all. -/
theorem C10_empty_redirect_header (st : CompState) (res : Resp)
    (h : res.redirectHeader = some "") :
    handleFormValidation st (.ok res) =
      handleFormValidation st (.ok { res with redirectHeader := none }) ∧
    ((res.redirected && !(isInternalUrl st.pageOrigin res.url)) = false →
      ∀ u, Effect.navigate u ∉ (handleFormValidation st (.ok res)).2) := by
  have hred : handleRedirect res = [] := by
    unfold handleRedirect getRedirectHeader
    rw [h]
    rfl
  constructor
  · by_cases hext : (res.redirected && !(isInternalUrl st.pageOrigin res.url)) = true
    · unfold handleFormValidation
      simp [hext, getRedirectHeader, h, hred]
    · simp only [Bool.not_eq_true] at hext
      rw [handleFormValidation_ok_noext st res hext,
        handleFormValidation_ok_noext st { res with redirectHeader := none } hext]
      simp [getRedirectHeader, h, hred]
  · intro hext u
    rw [handleFormValidation_ok_noext st res hext]
    simp only [getRedirectHeader, h, Option.isSome_some, if_true, hred,
      List.nil_append]
    exact statusBranches_no_navigate _ res.status res.body u

/-- Witness for C10 at the fixture: the empty-header 500 response is
handled exactly like the headerless one and navigates nowhere. -/
theorem C10_witness :
    resp500emptyRedirect.redirectHeader = some "" ∧
    (handleFormValidation demoState (.ok resp500emptyRedirect) =
      handleFormValidation demoState
        (.ok { resp500emptyRedirect with redirectHeader := none }) ∧
    ((resp500emptyRedirect.redirected &&
        !(isInternalUrl demoState.pageOrigin resp500emptyRedirect.url)) = false →
      ∀ u, Effect.navigate u ∉
        (handleFormValidation demoState (.ok resp500emptyRedirect)).2)) :=
  ⟨rfl, C10_empty_redirect_header demoState resp500emptyRedirect rfl⟩

/-- A rejected fetch, shared by several witnesses. -/
def netFail : Except FetchErr Resp := .error (.network "down")

/-- Fixture: a component whose controller map still holds a live token
under the submission channel key (as after an earlier submission). -/
def stWithFormToken : CompState :=
  { demoState with ctrl :=
      { tokens := [{ aborted := false, reason := none }],
        chans := [("form", 0)] } }

/-- C3 is false on the code as to "and only those": the sweep in
`handleFormValidation` runs `controller.abort()` on EVERY entry of the
map, so a live token registered under the submission channel key
`"form"` itself is cancelled too. -/
theorem C3_counterexample :
    nth (handleFormValidation stWithFormToken netFail).1.ctrl.tokens 0 =
      some { aborted := true, reason := none } := rfl

/-- C3 (amended): before the submission request is sent (the controller
sweep and registration happen in the state handed to the request), every
token bound in the map — per-field channels and any prior submission
token alike — is cancelled, and a fresh live token is registered under
the submission channel key. -/
theorem C3_submit_cancels_every_channel (st : CompState)
    (r : Except FetchErr Resp) (k : String) (id : Nat)
    (hmem : (k, id) ∈ st.ctrl.chans) (hlt : id < st.ctrl.tokens.length) :
    (∃ t, nth (handleFormValidation st r).1.ctrl.tokens id = some t ∧
      t.aborted = true) ∧
    chanGet (handleFormValidation st r).1.ctrl.chans "form" =
      some st.ctrl.tokens.length ∧
    nth (handleFormValidation st r).1.ctrl.tokens st.ctrl.tokens.length =
      some { aborted := false, reason := none } := by
  rw [handleFormValidation_ctrl st r]
  refine ⟨?_, ?_, ?_⟩
  · obtain ⟨t, ht, ha⟩ :=
      foldAbort_aborts st.ctrl.chans st.ctrl.tokens k id hmem hlt
    refine ⟨t, ?_, ha⟩
    show nth ((abortAll st.ctrl).tokens ++ [_]) id = some t
    rw [nth_append_left]
    · exact ht
    · rw [abortAll_tokens_length]
      exact hlt
  · show chanGet (setAssoc (abortAll st.ctrl).chans "form"
        (abortAll st.ctrl).tokens.length) "form" = some st.ctrl.tokens.length
    rw [chanGet_setAssoc_self, abortAll_tokens_length]
  · show nth ((abortAll st.ctrl).tokens ++ [_]) st.ctrl.tokens.length =
      some { aborted := false, reason := none }
    rw [← abortAll_tokens_length st.ctrl]
    exact nth_append_length _ _

/-- Fixture: a live per-field validation token for `email`. -/
def stWithFieldToken : CompState :=
  { demoState with ctrl :=
      { tokens := [{ aborted := false, reason := none }],
        chans := [("email", 0)] } }

/-- Witness for C3 (amended): submitting with a pending `email`
validation cancels it and registers the fresh submission token. -/
theorem C3_witness :
    (("email", 0) ∈ stWithFieldToken.ctrl.chans ∧
      0 < stWithFieldToken.ctrl.tokens.length) ∧
    ((∃ t, nth (handleFormValidation stWithFieldToken netFail).1.ctrl.tokens 0 =
        some t ∧ t.aborted = true) ∧
      chanGet (handleFormValidation stWithFieldToken netFail).1.ctrl.chans
        "form" = some 1 ∧
      nth (handleFormValidation stWithFieldToken netFail).1.ctrl.tokens 1 =
        some { aborted := false, reason := none }) :=
  ⟨⟨by decide, by decide⟩,
    C3_submit_cancels_every_channel stWithFieldToken netFail "email" 0
      (by decide) (by decide)⟩

/-- C4: for every field and every pair of successive blur-triggered
validations of that field (with non-empty values), after the first blur
the field's channel key is bound to a single fresh live token and any
token previously bound to the key is already cancelled; after the
second blur the first token is cancelled — before the new request is
issued, since the controller update precedes the request in the handler
— with the distinguished supersession reason `"Aborted by user"`
(distinct from the default reason `none` used elsewhere), and the new
token is the only live one for the key. -/
theorem C4_successive_blurs_supersede (st : CompState) (name v1 v2 : String)
    (r1 r2 : Except FetchErr Resp) (h1 : v1 ≠ "") (h2 : v2 ≠ "") :
    chanGet (handleInputValidation st name v1 r1).1.ctrl.chans name =
      some st.ctrl.tokens.length ∧
    nth (handleInputValidation st name v1 r1).1.ctrl.tokens
      st.ctrl.tokens.length = some { aborted := false, reason := none } ∧
    (∀ id0, chanGet st.ctrl.chans name = some id0 →
      id0 < st.ctrl.tokens.length →
      ∃ t, nth (handleInputValidation st name v1 r1).1.ctrl.tokens id0 =
        some t ∧ t.aborted = true) ∧
    nth (handleInputValidation (handleInputValidation st name v1 r1).1
        name v2 r2).1.ctrl.tokens st.ctrl.tokens.length =
      some { aborted := true, reason := some "Aborted by user" } ∧
    chanGet (handleInputValidation (handleInputValidation st name v1 r1).1
        name v2 r2).1.ctrl.chans name = some (st.ctrl.tokens.length + 1) ∧
    nth (handleInputValidation (handleInputValidation st name v1 r1).1
        name v2 r2).1.ctrl.tokens (st.ctrl.tokens.length + 1) =
      some { aborted := false, reason := none } := by
  have hc1 := handleInputValidation_ctrl st name v1 r1 h1
  have hc2 := handleInputValidation_ctrl
    (handleInputValidation st name v1 r1).1 name v2 r2 h2
  rw [hc1] at hc2
  obtain ⟨g1, g2, g3, g4, g5, g6⟩ :=
    ctrl_supersede st.ctrl name (some "Aborted by user")
  exact ⟨by rw [hc1]; exact g1, by rw [hc1]; exact g2,
    fun id0 hid0 hlt => by rw [hc1]; exact g3 id0 hid0 hlt,
    by rw [hc2]; exact g4, by rw [hc2]; exact g5, by rw [hc2]; exact g6⟩

/-- Witness for C4: two blurs on `email` leave the first token cancelled
with the supersession reason and the second live. -/
theorem C4_witness :
    ("a" ≠ "" ∧ "b" ≠ "") ∧
    nth (handleInputValidation
        (handleInputValidation demoState "email" "a" netFail).1
        "email" "b" netFail).1.ctrl.tokens 0 =
      some { aborted := true, reason := some "Aborted by user" } ∧
    nth (handleInputValidation
        (handleInputValidation demoState "email" "a" netFail).1
        "email" "b" netFail).1.ctrl.tokens 1 =
      some { aborted := false, reason := none } :=
  ⟨⟨by decide, by decide⟩,
    (C4_successive_blurs_supersede demoState "email" "a" "b" netFail netFail
      (by decide) (by decide)).2.2.2.1,
    (C4_successive_blurs_supersede demoState "email" "a" "b" netFail netFail
      (by decide) (by decide)).2.2.2.2.2⟩

/-- Fixture for the override discrepancy: the override node is a
`section` that does not match the fail selector but contains a match. -/
def c5dom : El :=
  el "html" [] [el "section" [] [el "div" [("id", "fail")] []]]

/-- C5 is false on the code: with a root override whose node does not
itself match the selector, the code replaces the override node itself
instead of searching for the first selector match within it — the code
result differs from the specified behavior
(`replaceElementsSpec`), and the `section` override node survives only
in the latter. -/
theorem C5_counterexample :
    replaceElements c5dom [] (el "html" [] [newFailNode]) failSel (some [0]) ≠
      replaceElementsSpec c5dom [] (el "html" [] [newFailNode]) failSel
        (some [0]) ∧
    (qsNode (.tagIs "section")
      (replaceElements c5dom [] (el "html" [] [newFailNode]) failSel
        (some [0])).1).isSome = false ∧
    (qsNode (.tagIs "section")
      (replaceElementsSpec c5dom [] (el "html" [] [newFailNode]) failSel
        (some [0])).1).isSome = true := by
  refine ⟨by decide, rfl, rfl⟩

/-- C5 (amended): `replaceElements` takes the first selector match of
the response document as the new node; the current node is the OVERRIDE
NODE ITSELF when a root override is given (no search within it), else
the first match inside the component subtree; when both sides exist the
single node swap happens at that position and the inserted node is
returned (and found at that path afterwards), and when either side is
missing nothing is mutated and the result is `none`. -/
theorem C5_replace_contract (dom : El) (cp : List Nat) (html : El) (s : Sel) :
    (∀ q cur pn ne, qsNode s html = some (pn, ne) → nodeAt q dom = some cur →
      replaceElements dom cp html s (some q) =
        (replaceAt q ne dom, some (q, ne)) ∧
      nodeAt q (replaceElements dom cp html s (some q)).1 = some ne) ∧
    (∀ ov, qsNode s html = none → replaceElements dom cp html s ov =
      (dom, none)) ∧
    (∀ pn ne, qsNode s html = some (pn, ne) → compQS dom cp s = none →
      replaceElements dom cp html s none = (dom, none)) ∧
    (∀ pn ne q cur, qsNode s html = some (pn, ne) →
      compQS dom cp s = some (q, cur) →
      replaceElements dom cp html s none = (replaceAt q ne dom, some (q, ne)) ∧
      nodeAt q (replaceElements dom cp html s none).1 = some ne) := by
  refine ⟨?_, ?_, ?_, ?_⟩
  · intro q cur pn ne hN hq
    have hr := replaceElements_override dom cp html s q pn ne hN
    refine ⟨hr, ?_⟩
    rw [hr]
    exact nodeAt_replaceAt q ne dom cur hq
  · intro ov hN
    exact replaceElements_noNew dom cp html s ov hN
  · intro pn ne hN hC
    exact replaceElements_noCurrent dom cp html s hC
  · intro pn ne q cur hN hC
    have hr := replaceElements_hit dom cp html s pn ne q cur hN hC
    refine ⟨hr, ?_⟩
    rw [hr]
    exact nodeAt_replaceAt q ne dom cur (compQS_sound dom cp s q cur hC).1

/-- Witness for C5 (amended) at the override fixture: the `section`
override node at `[0]` is itself replaced by the response fail node. -/
theorem C5_witness :
    (qsNode failSel (el "html" [] [newFailNode]) = some ([0], newFailNode) ∧
      nodeAt [0] c5dom = some (el "section" [] [el "div" [("id", "fail")] []])) ∧
    (replaceElements c5dom [] (el "html" [] [newFailNode]) failSel (some [0]) =
      (replaceAt [0] newFailNode c5dom, some ([0], newFailNode)) ∧
    nodeAt [0] (replaceElements c5dom [] (el "html" [] [newFailNode]) failSel
      (some [0])).1 = some newFailNode) :=
  ⟨⟨rfl, rfl⟩,
    (C5_replace_contract c5dom [] (el "html" [] [newFailNode]) failSel).1
      [0] (el "section" [] [el "div" [("id", "fail")] []]) [0] newFailNode
      rfl rfl⟩

/-- C6: for every 4XX response (no redirect header, fetch not
externally redirected) whose body carries a `form` and with a live
`form` inside the component, the live form node is replaced wholesale by
the response form, the new node becomes the component's live form
reference, full binding is re-run against it (`bindAll` at its path),
and afterwards — in the submit-listener pipeline — the first
input/textarea marked `aria-invalid="true"` inside the new form receives
focus with the caret moved to the end (the selected element is an
input/textarea, so the `setSelectionRange` capability check passes). -/
theorem C6_4xx_replaces_form_rebinds_focuses (st : CompState) (res : Resp)
    (h4 : 400 ≤ res.status) (h4b : res.status ≤ 499)
    (hhdr : res.redirectHeader = none)
    (hext : (res.redirected && !(isInternalUrl st.pageOrigin res.url)) = false)
    (pn : List Nat) (nf : El)
    (hB : qsNode (.tagIs "form") res.body = some (pn, nf))
    (pf : List Nat) (oldf : El)
    (hC : compQS st.dom st.compPath (.tagIs "form") = some (pf, oldf)) :
    (handleFormValidation st (.ok res)).1.dom = replaceAt pf nf st.dom ∧
    (handleFormValidation st (.ok res)).1.formRef = some pf ∧
    (handleFormValidation st (.ok res)).2 = [.bindAll pf] ∧
    (∀ qi e, elQS invalidSel nf = some (qi, e) →
      submitPipeline st (.ok res) =
        ((handleFormValidation st (.ok res)).1,
          [.bindAll pf, .focus (pf ++ qi), .caretEnd (pf ++ qi)])) := by
  have hmain : handleFormValidation st (.ok res) =
      ({ st with
          ctrl := ctrlSet (abortAll st.ctrl) "form",
          dom := replaceAt pf nf st.dom,
          formRef := some pf }, [.bindAll pf]) := by
    rw [handleFormValidation_ok_plain st res hhdr hext,
      statusBranches_4xx { st with ctrl := ctrlSet (abortAll st.ctrl) "form" }
        res.status res.body h4 h4b pn nf hB pf oldf hC]
  have hst1 : (handleFormValidation st (.ok res)).1 =
      { st with
        ctrl := ctrlSet (abortAll st.ctrl) "form",
        dom := replaceAt pf nf st.dom,
        formRef := some pf } := by
    rw [hmain]
  have heff : (handleFormValidation st (.ok res)).2 = [.bindAll pf] := by
    rw [hmain]
  have hnode : nodeAt pf (replaceAt pf nf st.dom) = some nf :=
    nodeAt_replaceAt pf nf st.dom oldf
      (compQS_sound st.dom st.compPath _ pf oldf hC).1
  refine ⟨by rw [hmain], by rw [hmain], heff, ?_⟩
  intro qi e hio
  have hcap : hasSetSelectionRange e = true :=
    invalid_has_range e (elQS_sound invalidSel nf qi e hio).2
  have hpe : submitPipeline st (.ok res) =
      ((handleFormValidation st (.ok res)).1,
        (handleFormValidation st (.ok res)).2 ++
          focusFirstInvalidInput (handleFormValidation st (.ok res)).1) := rfl
  have hfocus : focusFirstInvalidInput (handleFormValidation st (.ok res)).1 =
      [.focus (pf ++ qi), .caretEnd (pf ++ qi)] := by
    rw [hst1]
    simp [focusFirstInvalidInput, hnode, hio, hcap]
  rw [hpe, hfocus, heff]
  rfl

/-- Witness for C6 at the fixture: the 422 response replaces the form at
`[0, 0]`, rebinds, and the pipeline focuses the invalid input at
`[0, 0, 0]` with the caret at the end. -/
theorem C6_witness :
    (400 ≤ resp422.status ∧ resp422.status ≤ 499 ∧
      resp422.redirectHeader = none ∧
      qsNode (.tagIs "form") resp422.body = some ([0], respForm422) ∧
      compQS demoState.dom demoState.compPath (.tagIs "form") =
        some ([0, 0], demoForm)) ∧
    (handleFormValidation demoState (.ok resp422)).1.formRef = some [0, 0] ∧
    (handleFormValidation demoState (.ok resp422)).2 = [.bindAll [0, 0]] ∧
    submitPipeline demoState (.ok resp422) =
      ((handleFormValidation demoState (.ok resp422)).1,
        [.bindAll [0, 0], .focus [0, 0, 0], .caretEnd [0, 0, 0]]) :=
  ⟨⟨by decide, by decide, rfl, rfl, rfl⟩,
    (C6_4xx_replaces_form_rebinds_focuses demoState resp422 (by decide)
      (by decide) rfl rfl [0] respForm422 rfl [0, 0] demoForm rfl).2.1,
    (C6_4xx_replaces_form_rebinds_focuses demoState resp422 (by decide)
      (by decide) rfl rfl [0] respForm422 rfl [0, 0] demoForm rfl).2.2.1,
    (C6_4xx_replaces_form_rebinds_focuses demoState resp422 (by decide)
      (by decide) rfl rfl [0] respForm422 rfl [0, 0] demoForm rfl).2.2.2
      [0]
      (el "input"
        [("name", "email"), ("enhance-validate", ""), ("aria-invalid", "true")]
        [])
      rfl⟩

/-- C7 is false on the code: a 4XX response whose body contains no
`form` element makes `replaceElements` return `null`, which is assigned
to `_form` unchecked — the form reference of the fixture component
becomes `null` (the subsequent `bindEvents()` throw is caught and only
logged). -/
theorem C7_counterexample :
    demoState.formRef = some [0, 0] ∧
    (handleFormValidation demoState (.ok resp422noForm)).1.formRef = none ∧
    (handleFormValidation demoState (.ok resp422noForm)).2 = [.warn] := by
  refine ⟨rfl, rfl, rfl⟩

/-- C7 (amended): construction establishes the invariant (the reference
names a live `form` node, else construction fails); per-field validation
and submission never touch the form reference EXCEPT the 4XX branch of
submission handling, which re-points it at the response's `form` node
when the response body has one and the component a current one — but a
4XX body without a form sets the reference to `null`, so the invariant
is only preserved under the server contract that 4XX bodies carry the
form. -/
theorem C7_form_reference (st : CompState) :
    (∀ dom cp tS fS po st0, construct dom cp tS fS po = .ok st0 →
      ∃ p fe, st0.formRef = some p ∧ nodeAt p st0.dom = some fe ∧
        fe.tag = "form") ∧
    (∀ name value r,
      (handleInputValidation st name value r).1.formRef = st.formRef) ∧
    (∀ e, (handleFormValidation st (.error e)).1.formRef = st.formRef) ∧
    (∀ res, ¬(400 ≤ res.status ∧ res.status ≤ 499) →
      (handleFormValidation st (.ok res)).1.formRef = st.formRef) ∧
    (∀ res pn nf pf oldf, 400 ≤ res.status → res.status ≤ 499 →
      (res.redirected && !(isInternalUrl st.pageOrigin res.url)) = false →
      qsNode (.tagIs "form") res.body = some (pn, nf) →
      compQS st.dom st.compPath (.tagIs "form") = some (pf, oldf) →
      (handleFormValidation st (.ok res)).1.formRef = some pf ∧
      nodeAt pf (handleFormValidation st (.ok res)).1.dom = some nf ∧
      nf.tag = "form") := by
  refine ⟨?_, ?_, ?_, ?_, ?_⟩
  · intro dom cp tS fS po st0 h
    unfold construct at h
    cases hc : nodeAt cp dom with
    | none => rw [hc] at h; exact Except.noConfusion h
    | some comp =>
      rw [hc] at h
      have h' : (match elQS (.tagIs "form") comp with
          | none =>
            (Except.error "No form found in <enhance-form>" :
              Except String CompState)
          | some (p, _) =>
            .ok { dom := dom, compPath := cp, formRef := some (cp ++ p),
                  targetSel := tS, failSel := fS,
                  ctrl := { tokens := [], chans := [] },
                  pageOrigin := po }) = .ok st0 := h
      cases he : elQS (.tagIs "form") comp with
      | none => rw [he] at h'; exact Except.noConfusion h'
      | some px =>
        obtain ⟨p, f⟩ := px
        rw [he] at h'
        injection h' with hst
        obtain ⟨hn, hm⟩ := elQS_sound (.tagIs "form") comp p f he
        refine ⟨cp ++ p, f, ?_, ?_, tag_of_selMatches "form" f hm⟩
        · rw [← hst]
        · rw [← hst]
          show nodeAt (cp ++ p) dom = some f
          rw [nodeAt_append, hc]
          simpa using hn
  · intro name value r
    exact handleInputValidation_formRefAux st name value r
  · intro e
    rfl
  · intro res h
    by_cases hext :
        (res.redirected && !(isInternalUrl st.pageOrigin res.url)) = true
    · unfold handleFormValidation
      simp only [hext, if_true]
    · simp only [Bool.not_eq_true] at hext
      rw [handleFormValidation_ok_state st res hext]
      exact statusBranches_formRef _ res.status res.body h
  · intro res pn nf pf oldf h4 h4b hext hB hC
    have hstate := handleFormValidation_ok_state st res hext
    have hsb := statusBranches_4xx
      { st with ctrl := ctrlSet (abortAll st.ctrl) "form" }
      res.status res.body h4 h4b pn nf hB pf oldf hC
    rw [hstate, hsb]
    exact ⟨rfl,
      nodeAt_replaceAt pf nf st.dom oldf
        (compQS_sound st.dom st.compPath _ pf oldf hC).1,
      tag_of_selMatches "form" nf
        (qsNode_sound (.tagIs "form") res.body pn nf hB).2⟩

/-- The state the fixture constructor call produces. -/
def constructedState : CompState :=
  { dom := demoDom, compPath := [0], formRef := some [0, 0],
    targetSel := okSel, failSel := failSel,
    ctrl := { tokens := [], chans := [] },
    pageOrigin := "https://app.example" }

/-- Witness for C7 (amended): construction on the fixture yields a form
reference, blur validation preserves it, and the 422-with-form response
re-points it at the new form node. -/
theorem C7_witness :
    (construct demoDom [0] okSel failSel "https://app.example" =
      .ok constructedState ∧
      400 ≤ resp422.status ∧ resp422.status ≤ 499) ∧
    (∃ p fe, constructedState.formRef = some p ∧
      nodeAt p constructedState.dom = some fe ∧ fe.tag = "form") ∧
    (handleInputValidation demoState "email" "x" netFail).1.formRef =
      demoState.formRef ∧
    ((handleFormValidation demoState (.ok resp422)).1.formRef = some [0, 0] ∧
      nodeAt [0, 0] (handleFormValidation demoState (.ok resp422)).1.dom =
        some respForm422 ∧
      respForm422.tag = "form") :=
  ⟨⟨rfl, by decide, by decide⟩,
    (C7_form_reference demoState).1 demoDom [0] okSel failSel
      "https://app.example" constructedState rfl,
    (C7_form_reference demoState).2.1 "email" "x" netFail,
    (C7_form_reference demoState).2.2.2.2 resp422 [0] respForm422 [0, 0]
      demoForm (by decide) (by decide) rfl rfl rfl⟩

/-- C8: a rejected fetch — transport failure or cancellation, the only
failure sources here since `DOMParser` never throws — during per-field
validation or during submission is caught and logged as a single
warning, the handler returns normally (nothing is rethrown), and the
document together with the form reference is exactly as before; only the
controller bookkeeping that preceded the request differs. -/
theorem C8_failures_caught_logged_state_unchanged :
    (∀ (st : CompState) (name value : String) (e : FetchErr), value ≠ "" →
      handleInputValidation st name value (.error e) =
        ({ st with
            ctrl := ctrlSet (abortKey st.ctrl name (some "Aborted by user"))
              name }, [.warn])) ∧
    (∀ (st : CompState) (e : FetchErr),
      handleFormValidation st (.error e) =
        ({ st with ctrl := ctrlSet (abortAll st.ctrl) "form" }, [.warn])) := by
  constructor
  · intro st name value e hv
    unfold handleInputValidation
    rw [if_neg (by simpa using hv)]
  · intro st e
    rfl

/-- Witness for C8: concrete network failures during a blur validation
and during a submission each produce exactly one warning and leave the
document untouched. -/
theorem C8_witness :
    handleInputValidation demoState "email" "x" netFail =
      ({ demoState with
          ctrl := ctrlSet (abortKey demoState.ctrl "email"
            (some "Aborted by user")) "email" }, [.warn]) ∧
    handleFormValidation demoState netFail =
      ({ demoState with ctrl := ctrlSet (abortAll demoState.ctrl) "form" },
        [.warn]) :=
  ⟨C8_failures_caught_logged_state_unchanged.1 demoState "email" "x"
      (.network "down") (by decide),
    C8_failures_caught_logged_state_unchanged.2 demoState (.network "down")⟩

end EnhanceForm
